import Mathlib

/-!
Verification of the transaction-processing / budget-aggregation core of the
Pai repository (src/app/services/transaction_processor.py,
src/app/services/budget_engine.py, src/app/services/multibank_detector.py)
against its natural-language specification.

Modelling conventions:
* Python `Decimal` amounts are modelled as `ℚ` (Decimal arithmetic on the
  operations used here — addition, subtraction, abs, comparison — is exact).
* Timezone-aware datetimes are modelled as `Int` seconds since the Unix
  epoch (UTC).  `datetime.date()` is floor division by 86400;
  `datetime.isoformat()` is injective on instants, so the dedup hash input
  carries the instant itself.
* `hashlib.sha256` is modelled as the identity on its structured input
  (the standard collision-free model of a cryptographic hash).
* Python strings are modelled as Lean `String`; `str.lower`/`str.upper`
  are the character-wise `lowerStr`/`upperStr` (ASCII inputs).
* `None`-able fields are `Option`; Python truthiness of an optional string
  (`if tx.category:`) is `none`-or-empty-string falsity, see `strTruthy`.
-/

namespace Pai

/-- Canonical transaction record, from `app/models.py` `NormalizedTransaction`
(fields as constructed in `transaction_processor.py`). -/
structure NormalizedTransaction where
  id : String
  posted_at : Int
  amount : ℚ
  currency : String
  description : String
  merchant : Option String
  mcc : Option String
  account_id : String
  is_transfer : Bool
  is_duplicate : Bool
  category : Option String
  category_confidence : Option String
  deriving DecidableEq, Repr

/-- Python truthiness of an `Optional[str]`: `None` and `""` are falsy. -/
def strTruthy : Option String → Bool
  | none => false
  | some s => !s.isEmpty

/-- Python substring test `pat in hay` on character lists: does `pat` occur
at the head of `hay`? -/
def matchHere : List Char → List Char → Bool
  | [], _ => true
  | _ :: _, [] => false
  | c :: cs, d :: ds => c == d && matchHere cs ds

/-- Python substring test `pat in hay` on character lists. -/
def hasSub (hay pat : List Char) : Bool :=
  match hay with
  | [] => matchHere pat []
  | _ :: t => matchHere pat hay || hasSub t pat

/-- Python `pat in hay` on strings. -/
def strContains (hay pat : String) : Bool :=
  hasSub hay.data pat.data

/-- Python `str.lower` (ASCII), character-wise on the underlying list. -/
def lowerStr (s : String) : String := String.mk (s.data.map Char.toLower)

/-- Python `str.upper` (ASCII), character-wise on the underlying list. -/
def upperStr (s : String) : String := String.mk (s.data.map Char.toUpper)

/-- Python slice `s[:n]` (by characters). -/
def strTake (s : String) (n : Nat) : String := String.mk (s.data.take n)

/-- A non-empty string is exactly one with `isEmpty = false`. -/
theorem strIsEmpty_false_iff (s : String) : s.isEmpty = false ↔ s ≠ "" := by
  rw [Bool.eq_false_iff]
  exact not_congr (String.isEmpty_iff s)

/-- Case-insensitive containment, `pat.lower() in hay.lower()`. -/
def containsCI (hay pat : String) : Bool :=
  strContains (lowerStr hay) (lowerStr pat)

/-- Python `abs` on a Decimal amount (executable form; equal to `|q|`). -/
def qAbs (q : ℚ) : ℚ := if q < 0 then -q else q

/-- The executable absolute value agrees with the mathematical one. -/
theorem qAbs_eq_abs (q : ℚ) : qAbs q = |q| := by
  unfold qAbs
  rcases lt_trichotomy q 0 with h | h | h
  · rw [if_pos h, abs_of_neg h]
  · simp [h]
  · rw [if_neg (not_lt.mpr h.le), abs_of_pos h]

/-! ## Budget Aggregation Engine (`budget_engine.py`, `BudgetEngine.calculate_summary`)

The externally loaded category rows (`_load_categories`) are passed in as a
parameter; a requested period `"YYYY-MM"` is passed already split into its
year/month pair (`None`/empty-string periods are `none`). -/

/-- A configured budget category row (`budget_categories` table), as read by
`calculate_summary`. -/
structure BudgetCategory where
  key : String
  label : String
  target : ℚ
  rollover : Bool
  deriving DecidableEq, Repr

/-- One entry of the summary's `categories` list. -/
structure CategorySummary where
  key : String
  label : String
  target : ℚ
  spent : ℚ
  remaining : ℚ
  rollover : Bool
  deriving DecidableEq, Repr

/-- The `BudgetSummaryResponse` fields computed by `calculate_summary`
(the wall-clock presentation fields `period`/`last_updated` are omitted;
`savings` is the constant 0 of the source). -/
structure BudgetSummary where
  totals_spent : ℚ
  totals_income : ℚ
  totals_savings : ℚ
  categories : List CategorySummary
  coverage_pct : ℚ
  deriving DecidableEq, Repr

/-- Calendar date of a timestamp (days since epoch), i.e. `.date()` for a
UTC datetime. -/
def dateOf (t : Int) : Int := t.fdiv 86400

/-- Civil calendar date from days since the Unix epoch (standard
days-to-civil conversion, proleptic Gregorian). Returns (year, month, day). -/
def civilFromDays (z0 : Int) : Int × Int × Int :=
  let z := z0 + 719468
  let era := z.fdiv 146097
  let doe := z - era * 146097
  let yoe := (doe - doe.fdiv 1460 + doe.fdiv 36524 - doe.fdiv 146096).fdiv 365
  let y := yoe + era * 400
  let doy := doe - (365 * yoe + yoe.fdiv 4 - yoe.fdiv 100)
  let mp := (5 * doy + 2).fdiv 153
  let d := doy - (153 * mp + 2).fdiv 5 + 1
  let m := mp + (if mp < 10 then 3 else -9)
  (y + (if m ≤ 2 then 1 else 0), m, d)

/-- `posted_at.year` of a UTC timestamp. -/
def yearOf (t : Int) : Int := (civilFromDays (dateOf t)).1

/-- `posted_at.month` of a UTC timestamp. -/
def monthOf (t : Int) : Int := (civilFromDays (dateOf t)).2.1

/-- The two filters at the head of `calculate_summary`: drop transfer/duplicate
flagged transactions, then (when a period was requested) keep the requested
calendar month. -/
def filteredTxs (period : Option (Int × Int)) (transactions : List NormalizedTransaction) :
    List NormalizedTransaction :=
  let valid := transactions.filter fun tx => !tx.is_transfer && !tx.is_duplicate
  match period with
  | none => valid
  | some (y, m) => valid.filter fun tx => yearOf tx.posted_at == y && monthOf tx.posted_at == m

/-- Insertion-ordered dictionary update used to model the Python dict
`spending_by_category` (`d[k] = d.get(k, 0) + v`). -/
def assocAdd : List (String × ℚ) → String → ℚ → List (String × ℚ)
  | [], k, v => [(k, v)]
  | (k', v') :: rest, k, v =>
    if k' = k then (k', v' + v) :: rest else (k', v') :: assocAdd rest k v

/-- The `spending_by_category` dict of `calculate_summary`: outflow magnitudes
grouped by (truthy) category, in insertion order. -/
def spendingByCategory (valid : List NormalizedTransaction) : List (String × ℚ) :=
  valid.foldl
    (fun m tx =>
      if strTruthy tx.category && decide (tx.amount < 0) then
        assocAdd m (tx.category.getD "") (qAbs tx.amount)
      else m)
    []

/-- Association-list lookup (`dict.get(k, default)` with default 0 below). -/
def assocFind (m : List (String × ℚ)) (k : String) : Option ℚ :=
  (m.find? fun kv => kv.1 == k).map Prod.snd

/-- `BudgetEngine.calculate_summary` (budget_engine.py lines 15-78), with the
category rows and the parsed period supplied by the caller. -/
def calculateSummary (categories : List BudgetCategory) (period : Option (Int × Int))
    (transactions : List NormalizedTransaction) : BudgetSummary :=
  let valid := filteredTxs period transactions
  let spending := spendingByCategory valid
  let categorySummaries := categories.map fun cat =>
    let spent := (assocFind spending cat.key).getD 0
    { key := cat.key, label := cat.label, target := cat.target
      spent := spent, remaining := cat.target - spent, rollover := cat.rollover }
  let totalSpent := (spending.map Prod.snd).sum
  let totalIncome := ((valid.filter fun tx => decide (0 < tx.amount)).map fun tx => qAbs tx.amount).sum
  let categorized := valid.countP fun tx => strTruthy tx.category
  let coverage := if valid.isEmpty then 0 else (categorized : ℚ) / valid.length
  { totals_spent := totalSpent, totals_income := totalIncome, totals_savings := 0
    categories := categorySummaries, coverage_pct := coverage }

/-- A concrete transaction used by witnesses and counterexamples. -/
def sampleTx : NormalizedTransaction where
  id := "tx_1"
  posted_at := 1700000000
  amount := -11/2
  currency := "GBP"
  description := "Tesco Express"
  merchant := some "Tesco"
  mcc := none
  account_id := "acc_1"
  is_transfer := false
  is_duplicate := false
  category := none
  category_confidence := none

/-- A flagged transaction contributes nothing to the filtered list. -/
theorem filteredTxs_middle_flagged (period : Option (Int × Int))
    (l1 l2 : List NormalizedTransaction) (tx : NormalizedTransaction)
    (h : tx.is_transfer = true ∨ tx.is_duplicate = true) :
    filteredTxs period (l1 ++ tx :: l2) = filteredTxs period (l1 ++ l2) := by
  unfold filteredTxs
  have hpred : (!tx.is_transfer && !tx.is_duplicate) = false := by
    rcases h with h | h <;> simp [h]
  cases period with
  | none => simp [List.filter_append, List.filter_cons, hpred]
  | some p =>
    cases p with
    | mk y m => simp [List.filter_append, List.filter_cons, hpred]

end Pai

/-- C1: a transaction flagged `is_transfer` or `is_duplicate` is excluded from
every per-category spent value and from the totals' spent and income sums of
`calculate_summary`: the summary computed with the flagged transaction present
anywhere in the batch equals the summary computed without it. -/
theorem Pai.calculateSummary_excludes_flagged (categories : List Pai.BudgetCategory)
    (period : Option (Int × Int)) (l1 l2 : List Pai.NormalizedTransaction)
    (tx : Pai.NormalizedTransaction)
    (h : tx.is_transfer = true ∨ tx.is_duplicate = true) :
    Pai.calculateSummary categories period (l1 ++ tx :: l2)
      = Pai.calculateSummary categories period (l1 ++ l2) := by
  unfold Pai.calculateSummary
  rw [Pai.filteredTxs_middle_flagged period l1 l2 tx h]

/-- C1 witness: a concrete transfer-flagged transaction is excluded from a
concrete summary. -/
theorem Pai.calculateSummary_excludes_flagged_witness :
    ({ Pai.sampleTx with is_transfer := true }.is_transfer = true
        ∨ { Pai.sampleTx with is_transfer := true }.is_duplicate = true)
      ∧ Pai.calculateSummary [] none [{ Pai.sampleTx with is_transfer := true }]
          = Pai.calculateSummary [] none [] :=
  ⟨Or.inl rfl,
   Pai.calculateSummary_excludes_flagged [] none [] [] _ (Or.inl rfl)⟩

namespace Pai

/-- Summing the values of the spending dict after one `assocAdd` adds the new
contribution to the previous total. -/
theorem assocAdd_snd_sum (m : List (String × ℚ)) (k : String) (v : ℚ) :
    ((assocAdd m k v).map Prod.snd).sum = (m.map Prod.snd).sum + v := by
  induction m with
  | nil => simp [assocAdd]
  | cons hd tl ih =>
    by_cases h : hd.1 = k
    · simp [assocAdd, h, add_assoc, add_comm, add_left_comm]
    · simp [assocAdd, h, ih, add_assoc]

/-- The total of the spending dict equals the sum of outflow magnitudes of
categorized transactions, for any starting accumulator. -/
theorem spendingByCategory_sum_aux (v : List NormalizedTransaction)
    (m : List (String × ℚ)) :
    ((v.foldl
        (fun m tx =>
          if strTruthy tx.category && decide (tx.amount < 0) then
            assocAdd m (tx.category.getD "") (qAbs tx.amount)
          else m)
        m).map Prod.snd).sum
      = (m.map Prod.snd).sum
        + ((v.filter fun tx => strTruthy tx.category && decide (tx.amount < 0)).map
            fun tx => qAbs tx.amount).sum := by
  induction v generalizing m with
  | nil => simp
  | cons hd tl ih =>
    rw [List.foldl_cons, List.filter_cons]
    by_cases h : (strTruthy hd.category && decide (hd.amount < 0)) = true
    · rw [if_pos h, if_pos h, ih, assocAdd_snd_sum, List.map_cons, List.sum_cons]
      ring
    · rw [if_neg h, if_neg h, ih]

end Pai

/-- C9 (amended): `totals.spent` equals the summed outflow magnitudes of all
filtered transactions carrying a truthy category — i.e. the sum of
`spending_by_category` over every category present, configured or not — and
`totals.income` equals the summed magnitudes of filtered transactions with
positive amount. -/
theorem Pai.calculateSummary_totals_characterization
    (categories : List Pai.BudgetCategory) (period : Option (Int × Int))
    (txs : List Pai.NormalizedTransaction) :
    (Pai.calculateSummary categories period txs).totals_spent
      = (((Pai.filteredTxs period txs).filter
            fun tx => Pai.strTruthy tx.category && decide (tx.amount < 0)).map
          fun tx => qAbs tx.amount).sum
    ∧ (Pai.calculateSummary categories period txs).totals_income
      = (((Pai.filteredTxs period txs).filter fun tx => decide (0 < tx.amount)).map
          fun tx => qAbs tx.amount).sum := by
  constructor
  · show ((Pai.spendingByCategory (Pai.filteredTxs period txs)).map Prod.snd).sum = _
    rw [Pai.spendingByCategory, Pai.spendingByCategory_sum_aux]
    simp
  · rfl

/-- C9 counterexample: with one configured category `groceries` and one filtered
outflow categorized as `dining`, `totals.spent` is 10 while the sum of the
configured categories' spent values is 0 — the claimed equality fails. -/
theorem Pai.calculateSummary_totals_spent_counterexample :
    (Pai.calculateSummary [⟨"groceries", "Groceries", 140, false⟩] none
        [{ Pai.sampleTx with category := some "dining", amount := -10 }]).totals_spent
      ≠ ((Pai.calculateSummary [⟨"groceries", "Groceries", 140, false⟩] none
            [{ Pai.sampleTx with category := some "dining", amount := -10 }]).categories.map
          Pai.CategorySummary.spent).sum := by
  simp +decide [Pai.calculateSummary, Pai.filteredTxs, Pai.spendingByCategory,
    Pai.assocAdd, Pai.assocFind, Pai.strTruthy, Pai.qAbs, Pai.sampleTx]

/-- C4 (amended): `coverage_pct` equals the number of filtered transactions with
a truthy (non-null, non-empty) category divided by the number of filtered
transactions, lies in `[0, 1]`, and is 0 when the filtered set is empty. -/
theorem Pai.calculateSummary_coverage (categories : List Pai.BudgetCategory)
    (period : Option (Int × Int)) (txs : List Pai.NormalizedTransaction) :
    ((Pai.calculateSummary categories period txs).coverage_pct
        = (if (Pai.filteredTxs period txs).isEmpty then 0
           else ((Pai.filteredTxs period txs).countP
                  (fun tx => Pai.strTruthy tx.category) : ℚ)
                / (Pai.filteredTxs period txs).length))
    ∧ 0 ≤ (Pai.calculateSummary categories period txs).coverage_pct
    ∧ (Pai.calculateSummary categories period txs).coverage_pct ≤ 1
    ∧ ((Pai.filteredTxs period txs).isEmpty = true
        → (Pai.calculateSummary categories period txs).coverage_pct = 0) := by
  have hdef : (Pai.calculateSummary categories period txs).coverage_pct
      = (if (Pai.filteredTxs period txs).isEmpty then 0
         else ((Pai.filteredTxs period txs).countP
                (fun tx => Pai.strTruthy tx.category) : ℚ)
              / (Pai.filteredTxs period txs).length) := rfl
  refine ⟨hdef, ?_, ?_, ?_⟩
  · rw [hdef]
    by_cases h : (Pai.filteredTxs period txs).isEmpty
    · rw [if_pos h]
    · rw [if_neg h]
      positivity
  · rw [hdef]
    by_cases h : (Pai.filteredTxs period txs).isEmpty
    · rw [if_pos h]
      norm_num
    · rw [if_neg h]
      have hne : Pai.filteredTxs period txs ≠ [] := by
        simpa [List.isEmpty_iff] using h
      have hlen : 0 < ((Pai.filteredTxs period txs).length : ℚ) := by
        exact_mod_cast List.length_pos.mpr hne
      rw [div_le_one hlen]
      exact_mod_cast List.countP_le_length _
  · intro h
    rw [hdef, h]
    simp

/-- C4 witness: the coverage characterization applied at an empty batch and at a
concrete singleton batch. -/
theorem Pai.calculateSummary_coverage_witness :
    (Pai.calculateSummary [] none []).coverage_pct = 0
      ∧ (Pai.calculateSummary [] none [Pai.sampleTx]).coverage_pct ≤ 1 :=
  ⟨(Pai.calculateSummary_coverage [] none []).2.2.2 rfl,
   (Pai.calculateSummary_coverage [] none [Pai.sampleTx]).2.2.1⟩

/-- C4 counterexample: a filtered transaction whose category is the empty string
(non-null, but falsy in Python) is not counted by the code — coverage is 0 while
the claimed non-null ratio is 1. -/
theorem Pai.calculateSummary_coverage_counterexample :
    (Pai.calculateSummary [] none
        [{ Pai.sampleTx with category := some "" }]).coverage_pct
      ≠ (([{ Pai.sampleTx with category := some "" }].countP
            (fun tx : Pai.NormalizedTransaction => tx.category ≠ none) : ℚ)
          / ([{ Pai.sampleTx with category := some "" }] : List Pai.NormalizedTransaction).length) := by
  simp +decide [Pai.calculateSummary, Pai.filteredTxs, Pai.strTruthy, Pai.sampleTx]

namespace Pai

/-! ## Deduplicator (`transaction_processor.py`,
`TransactionProcessor.deduplicate_transactions` and `_transaction_hash`)

`_transaction_hash` digests
`f"{account_id}:{posted_at.isoformat()}:{amount}:{description[:50]}"` with
sha256; the hash is modelled as the structured input itself (collision-free
model; `isoformat` is injective on UTC instants, so the instant stands for
its ISO string).  The process-wide `recent_hashes` dict is threaded as an
insertion-ordered association list, and `utc_now()` is a `now` parameter. -/

/-- The hash input of `_transaction_hash`: account id, ISO timestamp, amount,
first 50 description characters. -/
def transactionHash (tx : NormalizedTransaction) : String × Int × ℚ × String :=
  (tx.account_id, tx.posted_at, tx.amount, strTake tx.description 50)

/-- Lookup in the `recent_hashes` dict. -/
def hashLookup (m : List ((String × Int × ℚ × String) × Int))
    (h : String × Int × ℚ × String) : Option Int :=
  (m.find? fun kv => decide (kv.1 = h)).map Prod.snd

/-- Python dict assignment `recent_hashes[h] = t`: update in place, else
append. -/
def hashInsert (m : List ((String × Int × ℚ × String) × Int))
    (h : String × Int × ℚ × String) (t : Int) :
    List ((String × Int × ℚ × String) × Int) :=
  match m with
  | [] => [(h, t)]
  | kv :: rest => if kv.1 = h then (h, t) :: rest else kv :: hashInsert rest h t

/-- One iteration of the `deduplicate_transactions` loop: mark the transaction
duplicate when its hash was seen within 72 hours (leaving the seen-map
untouched), otherwise record the hash with this transaction's timestamp. -/
def dedupStep (m : List ((String × Int × ℚ × String) × Int))
    (tx : NormalizedTransaction) :
    List ((String × Int × ℚ × String) × Int) × NormalizedTransaction :=
  let h := transactionHash tx
  match hashLookup m h with
  | some t0 =>
    if (tx.posted_at - t0).natAbs < 72 * 3600 then (m, { tx with is_duplicate := true })
    else (hashInsert m h tx.posted_at, tx)
  | none => (hashInsert m h tx.posted_at, tx)

/-- `TransactionProcessor.deduplicate_transactions` (lines 57-80): fold the
batch through `dedupStep`, then purge seen-map entries older than 7 days
(the local `seen` set of the source is written but never read). -/
def deduplicateTransactions (now : Int)
    (m0 : List ((String × Int × ℚ × String) × Int))
    (txs : List NormalizedTransaction) :
    List ((String × Int × ℚ × String) × Int) × List NormalizedTransaction :=
  let st := txs.foldl
    (fun (st : List ((String × Int × ℚ × String) × Int) × List NormalizedTransaction) tx =>
      let r := dedupStep st.1 tx
      (r.1, r.2 :: st.2))
    (m0, [])
  (st.1.filter fun kv => decide (now - 7 * 86400 < kv.2), st.2.reverse)

/-- Equal transaction hashes force equal timestamps: the ISO timestamp is a
component of the hash input. -/
theorem transactionHash_posted_at {u v : NormalizedTransaction}
    (h : transactionHash u = transactionHash v) : u.posted_at = v.posted_at := by
  have := congrArg (fun p => p.2.1) h
  simpa [transactionHash] using this

end Pai

/-- C2 (amended): running the Deduplicator from an empty seen-map on a pair of
unflagged transactions never marks the first, and marks the second exactly when
its full hash input — timestamp included — equals the first's (the 72-hour
window check is then trivially satisfied, the stored timestamp being the
transaction's own).  In particular two transactions identical except for
timestamps 71 (or 73) hours apart hash differently and neither is marked. -/
theorem Pai.deduplicateTransactions_pair_characterization (now : Int)
    (t1 t2 : Pai.NormalizedTransaction)
    (h1 : t1.is_duplicate = false) (h2 : t2.is_duplicate = false) :
    ((Pai.deduplicateTransactions now [] [t1, t2]).2.map
        fun tx => tx.is_duplicate)
      = [false, decide (Pai.transactionHash t2 = Pai.transactionHash t1)] := by
  by_cases heq : Pai.transactionHash t2 = Pai.transactionHash t1
  · have heq' : Pai.transactionHash t1 = Pai.transactionHash t2 := heq.symm
    have hts : t2.posted_at = t1.posted_at := Pai.transactionHash_posted_at heq
    have hrhs : decide (Pai.transactionHash t2 = Pai.transactionHash t1) = true :=
      decide_eq_true heq
    rw [hrhs]
    simp [Pai.deduplicateTransactions, Pai.dedupStep, Pai.hashLookup, Pai.hashInsert,
      heq', hts, h1, h2]
  · have heq' : ¬(Pai.transactionHash t1 = Pai.transactionHash t2) := fun h => heq h.symm
    simp [Pai.deduplicateTransactions, Pai.dedupStep, Pai.hashLookup, Pai.hashInsert,
      heq, heq', h1, h2]

/-- C2 witness: the pair characterization applied to two concrete transactions
whose timestamps are 71 hours apart. -/
theorem Pai.deduplicateTransactions_pair_characterization_witness :
    ((Pai.deduplicateTransactions 1700000000 []
        [Pai.sampleTx,
         { Pai.sampleTx with id := "tx_2", posted_at := 1700000000 + 71 * 3600 }]).2.map
        fun tx => tx.is_duplicate)
      = [false,
         decide (Pai.transactionHash
              { Pai.sampleTx with id := "tx_2", posted_at := 1700000000 + 71 * 3600 }
            = Pai.transactionHash Pai.sampleTx)] :=
  Pai.deduplicateTransactions_pair_characterization 1700000000 _ _ rfl rfl

/-- C2 counterexample: two transactions with identical account id, amount and
description but timestamps exactly 71 hours apart.  As literally stated the
claim's hypothesis is unsatisfiable (identical ISO timestamps force equal
instants, which cannot be 71 hours apart); under the only satisfiable reading
— all hash inputs except the timestamp identical — the code marks NEITHER
transaction duplicate, because the timestamp is part of the hash, refuting
"the second is marked duplicate". -/
theorem Pai.deduplicateTransactions_71h_counterexample :
    ({ Pai.sampleTx with id := "tx_2", posted_at := 1700000000 + 71 * 3600 }.posted_at
        - Pai.sampleTx.posted_at = 71 * 3600)
      ∧ ((Pai.deduplicateTransactions 1700000000 []
            [Pai.sampleTx,
             { Pai.sampleTx with id := "tx_2", posted_at := 1700000000 + 71 * 3600 }]).2.map
          fun tx => tx.is_duplicate)
        = [false, false] := by
  constructor
  · decide
  · simp +decide [Pai.deduplicateTransactions, Pai.dedupStep, Pai.hashLookup,
      Pai.hashInsert, Pai.transactionHash, Pai.sampleTx]

namespace Pai

/-! ## Single-pass Transfer Detector (`transaction_processor.py`,
`TransactionProcessor.detect_transfers`)

Transactions are bucketed by `(posted_at.date(), abs(amount).quantize(0.01))`
and, per bucket, positive and negative transactions are zipped in arrival
order; pairs from different accounts have both sides flagged.  In-place
mutation is modelled by tagging each transaction with its list position: the
flag-set is computed from the original values (the loop never reads
`is_transfer`), then applied position-wise. -/

/-- Decimal `quantize` scaling to an integer with the default
ROUND_HALF_EVEN banker's rounding. -/
def roundHalfEvenInt (q : ℚ) : Int :=
  let n := ⌊q⌋
  let f := q - n
  if f < 1/2 then n
  else if 1/2 < f then n + 1
  else if n % 2 = 0 then n else n + 1

/-- `_round_amount`: `a.quantize(Decimal("0.01"))`, i.e. rounding to two
decimal places, banker's rounding. -/
def roundAmount2 (a : ℚ) : ℚ := (roundHalfEvenInt (a * 100) : ℚ) / 100

/-- The bucket key `(tx.posted_at.date(), _round_amount(abs(tx.amount)))`. -/
def bucketKey (tx : NormalizedTransaction) : Int × ℚ :=
  (dateOf tx.posted_at, roundAmount2 (qAbs tx.amount))

/-- The bucket for key `k`: the position-tagged transactions with that key, in
arrival order (`defaultdict(list)` appends in iteration order). -/
def bucketGroup (txs : List NormalizedTransaction) (k : Int × ℚ) :
    List (Nat × NormalizedTransaction) :=
  txs.enum.filter fun it => decide (bucketKey it.2 = k)

/-- `zip(positive, negative)` of a bucket: the candidate pairs, in arrival
order. -/
def transferPairs (txs : List NormalizedTransaction) (k : Int × ℚ) :
    List ((Nat × NormalizedTransaction) × (Nat × NormalizedTransaction)) :=
  ((bucketGroup txs k).filter fun it => decide (0 < it.2.amount)).zip
    ((bucketGroup txs k).filter fun it => decide (it.2.amount < 0))

/-- The bucket keys in use for a batch. -/
def bucketKeys (txs : List NormalizedTransaction) : List (Int × ℚ) :=
  (txs.map bucketKey).dedup

/-- The list positions flagged by the detector: both sides of every
different-account pair of every bucket. -/
def flaggedIndices (txs : List NormalizedTransaction) : List Nat :=
  (bucketKeys txs).flatMap fun k =>
    ((transferPairs txs k).filter fun pq =>
        decide (pq.1.2.account_id ≠ pq.2.2.account_id)).flatMap
      fun pq => [pq.1.1, pq.2.1]

/-- `TransactionProcessor.detect_transfers` (lines 82-104): set `is_transfer`
on both sides of every different-account opposite-sign pair. -/
def detectTransfers (txs : List NormalizedTransaction) : List NormalizedTransaction :=
  txs.enum.map fun it =>
    if it.1 ∈ flaggedIndices txs then { it.2 with is_transfer := true } else it.2

/-- Positional view of the detector's output. -/
theorem detectTransfers_get? (txs : List NormalizedTransaction) (i : Nat) :
    (detectTransfers txs).get? i
      = (txs.get? i).map fun tx =>
          if i ∈ flaggedIndices txs then { tx with is_transfer := true } else tx := by
  unfold detectTransfers
  rw [List.get?_map, List.get?_enum]
  cases txs.get? i <;> simp

/-- A member of a transfer pair is an enumerated transaction of its bucket's
key. -/
theorem transferPairs_mem_left {txs : List NormalizedTransaction} {k : Int × ℚ}
    {p q : Nat × NormalizedTransaction} (hmem : (p, q) ∈ transferPairs txs k) :
    txs.get? p.1 = some p.2 ∧ bucketKey p.2 = k := by
  obtain ⟨hp, -⟩ := List.of_mem_zip hmem
  have hg := List.mem_of_mem_filter hp
  have hkey := (List.mem_filter.mp hg).2
  refine ⟨?_, by simpa using hkey⟩
  obtain ⟨i, a⟩ := p
  exact List.mk_mem_enum_iff_get?.mp (List.mem_of_mem_filter hg)

/-- Mirror of `transferPairs_mem_left` for the negative side. -/
theorem transferPairs_mem_right {txs : List NormalizedTransaction} {k : Int × ℚ}
    {p q : Nat × NormalizedTransaction} (hmem : (p, q) ∈ transferPairs txs k) :
    txs.get? q.1 = some q.2 ∧ bucketKey q.2 = k := by
  obtain ⟨-, hq⟩ := List.of_mem_zip hmem
  have hg := List.mem_of_mem_filter hq
  have hkey := (List.mem_filter.mp hg).2
  refine ⟨?_, by simpa using hkey⟩
  obtain ⟨j, b⟩ := q
  exact List.mk_mem_enum_iff_get?.mp (List.mem_of_mem_filter hg)

/-- Both positions of a different-account pair are in the flag set. -/
theorem mem_flaggedIndices_of_pair {txs : List NormalizedTransaction} {k : Int × ℚ}
    {p q : Nat × NormalizedTransaction} (hmem : (p, q) ∈ transferPairs txs k)
    (hacc : p.2.account_id ≠ q.2.account_id) :
    p.1 ∈ flaggedIndices txs ∧ q.1 ∈ flaggedIndices txs := by
  have hpk := transferPairs_mem_left hmem
  have hkmem : k ∈ bucketKeys txs := by
    have hmem2 : p.2 ∈ txs := List.get?_mem hpk.1
    have : bucketKey p.2 ∈ txs.map bucketKey := List.mem_map_of_mem bucketKey hmem2
    rw [hpk.2] at this
    exact List.mem_dedup.mpr this
  have hfil : (p, q) ∈ (transferPairs txs k).filter fun pq =>
      decide (pq.1.2.account_id ≠ pq.2.2.account_id) :=
    List.mem_filter.mpr ⟨hmem, by simpa using hacc⟩
  constructor
  · exact List.mem_flatMap.mpr ⟨k, hkmem,
      List.mem_flatMap.mpr ⟨(p, q), hfil, by simp⟩⟩
  · exact List.mem_flatMap.mpr ⟨k, hkmem,
      List.mem_flatMap.mpr ⟨(p, q), hfil, by simp⟩⟩

end Pai

/-- C3: within every bucket keyed by (calendar date, absolute amount rounded to
two decimals), positive and negative transactions are paired by arrival-order
zip, and for every pair whose account ids differ BOTH transactions of the pair
end with `is_transfer = true` (all other fields unchanged) — never only one
side. -/
theorem Pai.detectTransfers_pair_both_flagged (txs : List Pai.NormalizedTransaction)
    (k : Int × ℚ) (p q : Nat × Pai.NormalizedTransaction)
    (hmem : (p, q) ∈ Pai.transferPairs txs k)
    (hacc : p.2.account_id ≠ q.2.account_id) :
    (Pai.detectTransfers txs).get? p.1 = some { p.2 with is_transfer := true }
      ∧ (Pai.detectTransfers txs).get? q.1 = some { q.2 with is_transfer := true } := by
  obtain ⟨hpflag, hqflag⟩ := Pai.mem_flaggedIndices_of_pair hmem hacc
  constructor
  · rw [Pai.detectTransfers_get?, (Pai.transferPairs_mem_left hmem).1]
    simp [hpflag]
  · rw [Pai.detectTransfers_get?, (Pai.transferPairs_mem_right hmem).1]
    simp [hqflag]

namespace Pai

/-- Concrete incoming side of a transfer pair, for the C3 witness. -/
def transferInTx : NormalizedTransaction :=
  { sampleTx with
      id := "pos_0"
      description := "Transfer In"
      amount := 100
      account_id := "acc_1" }

/-- Concrete outgoing side of a transfer pair, for the C3 witness. -/
def transferOutTx : NormalizedTransaction :=
  { sampleTx with
      id := "neg_0"
      description := "Transfer Out"
      amount := -100
      account_id := "acc_2" }

end Pai

/-- C3 witness: a concrete same-day pair of +100 and -100 on two accounts; both
sides come out flagged. -/
theorem Pai.detectTransfers_pair_both_flagged_witness :
    (Pai.detectTransfers [Pai.transferInTx, Pai.transferOutTx]).get? 0
      = some { Pai.transferInTx with is_transfer := true }
    ∧ (Pai.detectTransfers [Pai.transferInTx, Pai.transferOutTx]).get? 1
      = some { Pai.transferOutTx with is_transfer := true } := by
  have hmem :
      ((0, Pai.transferInTx), (1, Pai.transferOutTx))
        ∈ Pai.transferPairs [Pai.transferInTx, Pai.transferOutTx]
            (Pai.dateOf Pai.sampleTx.posted_at, 100) := by
    norm_num [Pai.transferPairs, Pai.bucketGroup, Pai.bucketKey, Pai.roundAmount2,
      Pai.roundHalfEvenInt, Pai.qAbs, Pai.dateOf, Pai.sampleTx, Pai.transferInTx,
      Pai.transferOutTx, List.enum, List.enumFrom]
  exact Pai.detectTransfers_pair_both_flagged _ _ _ _ hmem (by decide)

namespace Pai

/-! ## Categorizer (`transaction_processor.py`, `apply_rules`,
`_apply_user_rules`, `_rule_matches`, `_categorize_heuristic`)

Rules arrive from the rule store already ordered by priority
(`.order("priority")` in `_load_rules`), so the rule list order is the
priority order. -/

/-- The optional matchers of a rule (`rule['matchers']` dict; a `none` field
is an absent key). -/
structure Matchers where
  merchant : Option String
  description_contains : Option String
  amount_min : Option ℚ
  amount_max : Option ℚ
  deriving DecidableEq, Repr

/-- A user categorization rule row (`budget_rules` table). -/
structure CategorizationRule where
  category_key : String
  matchers : Matchers
  deriving DecidableEq, Repr

/-- `TransactionProcessor._rule_matches` (lines 168-184): every present
matcher must be satisfied; a falsy (`None` or empty) transaction merchant
fails a present merchant matcher. -/
def ruleMatches (tx : NormalizedTransaction) (m : Matchers) : Bool :=
  (match m.merchant with
   | some pat =>
     match tx.merchant with
     | none => false
     | some mer => !mer.isEmpty && containsCI mer pat
   | none => true) &&
  (match m.description_contains with
   | some pat => containsCI tx.description pat
   | none => true) &&
  (match m.amount_min with
   | some lo => decide (lo ≤ tx.amount)
   | none => true) &&
  (match m.amount_max with
   | some hi => decide (tx.amount ≤ hi)
   | none => true)

/-- `TransactionProcessor._apply_user_rules` (lines 160-166): the first
matching rule's `category_key`, else `None`. -/
def applyUserRules (rules : List CategorizationRule) (tx : NormalizedTransaction) :
    Option String :=
  match rules with
  | [] => none
  | r :: rest =>
    if ruleMatches tx r.matchers then some r.category_key else applyUserRules rest tx

/-- The `_categorize_heuristic` keyword table rows, in source order. -/
def heuristicTable : List (List String × String) :=
  [(["tesco", "sainsbury", "asda", "waitrose", "morrisons", "aldi", "lidl",
     "restaurant", "cafe", "pizza"], "groceries"),
   (["shell", "bp", "esso", "tfl", "uber", "train", "fuel", "petrol"], "transport"),
   (["british gas", "edf", "bt", "virgin", "sky", "vodafone"], "utilities"),
   (["cinema", "netflix", "spotify", "steam", "gym"], "entertainment"),
   (["amazon", "ebay", "argos", "john lewis"], "shopping")]

/-- `TransactionProcessor._categorize_heuristic` (lines 186-201): keyword
containment over lower-cased `f"{merchant or ''} {description}"`, the if/elif
chain realised as a first-match scan of `heuristicTable`. -/
def categorizeHeuristic (tx : NormalizedTransaction) : Option String :=
  let text := lowerStr ((tx.merchant.getD "") ++ " " ++ tx.description)
  ((heuristicTable.find? fun row =>
      row.1.any fun kw => strContains text kw).map Prod.snd)

/-- The final `category` value computed inside the `apply_rules` loop body:
the user-rule result if truthy (Python `if not category:`), else the
heuristic result. -/
def chosenCategory (rules : List CategorizationRule) (tx : NormalizedTransaction) :
    Option String :=
  if strTruthy (applyUserRules rules tx) then applyUserRules rules tx
  else categorizeHeuristic tx

/-- One iteration of `TransactionProcessor.apply_rules` (lines 135-150):
transfer/duplicate flagged transactions are skipped, others get `category`
and `category_confidence` set. -/
def applyRulesTx (rules : List CategorizationRule) (tx : NormalizedTransaction) :
    NormalizedTransaction :=
  if tx.is_transfer || tx.is_duplicate then tx
  else
    { tx with
        category := chosenCategory rules tx
        category_confidence :=
          some (if strTruthy (chosenCategory rules tx) then "high" else "low") }

/-- `TransactionProcessor.apply_rules` over a batch. -/
def applyRules (rules : List CategorizationRule) (txs : List NormalizedTransaction) :
    List NormalizedTransaction :=
  txs.map (applyRulesTx rules)

/-- Rule matching never reads the category fields. -/
theorem ruleMatches_update (tx : NormalizedTransaction) (m : Matchers)
    (c k : Option String) :
    ruleMatches { tx with category := c, category_confidence := k } m
      = ruleMatches tx m := rfl

/-- The heuristic never reads the category fields. -/
theorem categorizeHeuristic_update (tx : NormalizedTransaction)
    (c k : Option String) :
    categorizeHeuristic { tx with category := c, category_confidence := k }
      = categorizeHeuristic tx := rfl

/-- User-rule application never reads the category fields. -/
theorem applyUserRules_update (rules : List CategorizationRule)
    (tx : NormalizedTransaction) (c k : Option String) :
    applyUserRules rules { tx with category := c, category_confidence := k }
      = applyUserRules rules tx := by
  induction rules with
  | nil => rfl
  | cons r rest ih =>
    simp only [applyUserRules]
    rw [ruleMatches_update, ih]

/-- The chosen category never reads the category fields. -/
theorem chosenCategory_update (rules : List CategorizationRule)
    (tx : NormalizedTransaction) (c k : Option String) :
    chosenCategory rules { tx with category := c, category_confidence := k }
      = chosenCategory rules tx := by
  unfold chosenCategory
  rw [applyUserRules_update, categorizeHeuristic_update]

/-- One pass of the categorizer is idempotent on a single transaction. -/
theorem applyRulesTx_idem (rules : List CategorizationRule)
    (tx : NormalizedTransaction) :
    applyRulesTx rules (applyRulesTx rules tx) = applyRulesTx rules tx := by
  unfold applyRulesTx
  by_cases h : (tx.is_transfer || tx.is_duplicate) = true
  · rw [if_pos h, if_pos h]
  · rw [if_neg h, if_neg h]
    simp only [chosenCategory_update]

end Pai

/-- C6: running the Categorizer a second time on the same transaction set with
the same rule set yields exactly the same output — in particular the same
category assignment for every transaction — as the first run. -/
theorem Pai.applyRules_idempotent (rules : List Pai.CategorizationRule)
    (txs : List Pai.NormalizedTransaction) :
    Pai.applyRules rules (Pai.applyRules rules txs) = Pai.applyRules rules txs := by
  unfold Pai.applyRules
  rw [List.map_map]
  exact List.map_congr_left fun tx _ => Pai.applyRulesTx_idem rules tx

namespace Pai

/-- The user-rule result is the first rule accepted by `ruleMatches`. -/
theorem applyUserRules_eq_find? (rules : List CategorizationRule)
    (tx : NormalizedTransaction) :
    applyUserRules rules tx
      = (rules.find? fun r => ruleMatches tx r.matchers).map
          CategorizationRule.category_key := by
  induction rules with
  | nil => rfl
  | cons r rest ih =>
    by_cases h : ruleMatches tx r.matchers = true
    · simp [applyUserRules, List.find?_cons_of_pos _ h, h]
    · simp only [applyUserRules]
      rw [if_neg h, List.find?_cons_of_neg (p := fun q : CategorizationRule => Pai.ruleMatches tx q.matchers) _ h]
      exact ih

/-- `ruleMatches` spelled out: all present matchers are satisfied — merchant
case-insensitive substring containment (in a truthy merchant), description
substring containment, and the inclusive amount range. -/
theorem ruleMatches_iff (tx : NormalizedTransaction) (m : Matchers) :
    ruleMatches tx m = true ↔
      (∀ pat, m.merchant = some pat →
        ∃ mer, tx.merchant = some mer ∧ mer ≠ "" ∧ containsCI mer pat = true)
      ∧ (∀ pat, m.description_contains = some pat →
          containsCI tx.description pat = true)
      ∧ (∀ lo, m.amount_min = some lo → lo ≤ tx.amount)
      ∧ (∀ hi, m.amount_max = some hi → tx.amount ≤ hi) := by
  obtain ⟨mm, md, mlo, mhi⟩ := m
  simp only [ruleMatches, Bool.and_eq_true]
  constructor
  · rintro ⟨⟨⟨hm, hd⟩, hlo⟩, hhi⟩
    refine ⟨?_, ?_, ?_, ?_⟩
    · rintro pat rfl
      match hmer : tx.merchant with
      | none => rw [hmer] at hm; exact absurd hm (by simp)
      | some mer =>
        rw [hmer] at hm
        simp only [Bool.and_eq_true] at hm
        exact ⟨mer, rfl, (strIsEmpty_false_iff mer).mp (by simpa using hm.1), hm.2⟩
    · rintro pat rfl
      simpa using hd
    · rintro lo rfl
      simpa using hlo
    · rintro hi rfl
      simpa using hhi
  · rintro ⟨hm, hd, hlo, hhi⟩
    refine ⟨⟨⟨?_, ?_⟩, ?_⟩, ?_⟩
    · match hmm : mm with
      | none => rfl
      | some pat =>
        obtain ⟨mer, hmer, hne, hci⟩ := hm pat rfl
        rw [hmer]
        simp [hci, (strIsEmpty_false_iff mer).mpr hne]
    · match hmd : md with
      | none => rfl
      | some pat => simpa using hd pat rfl
    · match hmlo : mlo with
      | none => rfl
      | some lo => simpa using hlo lo rfl
    · match hmhi : mhi with
      | none => rfl
      | some hi => simpa using hhi hi rfl

end Pai

/-- C5 (amended): for a transaction not flagged transfer/duplicate, when the
first rule (in priority order) all of whose present matchers are satisfied has
a non-empty `category_key`, the Categorizer assigns exactly that key (so a rule
with an unsatisfied present matcher — being skipped by the first-match scan —
never determines the category); `ruleMatches` is exactly "all present matchers
satisfied". A matching rule whose `category_key` is empty is instead ignored
in favour of the heuristic (Python `if not category:`), see the
counterexample. -/
theorem Pai.applyRulesTx_first_matching_rule (rules : List Pai.CategorizationRule)
    (tx : Pai.NormalizedTransaction) (r : Pai.CategorizationRule)
    (hntr : tx.is_transfer = false) (hndup : tx.is_duplicate = false)
    (hfind : (rules.find? fun r => Pai.ruleMatches tx r.matchers) = some r)
    (hkey : r.category_key ≠ "") :
    (Pai.applyRulesTx rules tx).category = some r.category_key
      ∧ (Pai.ruleMatches tx r.matchers = true ↔
          (∀ pat, r.matchers.merchant = some pat →
            ∃ mer, tx.merchant = some mer ∧ mer ≠ ""
              ∧ Pai.containsCI mer pat = true)
          ∧ (∀ pat, r.matchers.description_contains = some pat →
              Pai.containsCI tx.description pat = true)
          ∧ (∀ lo, r.matchers.amount_min = some lo → lo ≤ tx.amount)
          ∧ (∀ hi, r.matchers.amount_max = some hi → tx.amount ≤ hi)) := by
  refine ⟨?_, Pai.ruleMatches_iff tx r.matchers⟩
  have hflag : (tx.is_transfer || tx.is_duplicate) = false := by
    rw [hntr, hndup]; rfl
  have hcat : Pai.chosenCategory rules tx = some r.category_key := by
    unfold Pai.chosenCategory
    rw [Pai.applyUserRules_eq_find?, hfind]
    simp [Pai.strTruthy, String.isEmpty_iff, hkey]
  unfold Pai.applyRulesTx
  rw [Bool.eq_false_iff] at hflag
  rw [if_neg hflag, hcat]

/-- C5 witness: a Tesco transaction and a single merchant-matcher rule with a
non-empty key; the rule's key is assigned. -/
theorem Pai.applyRulesTx_first_matching_rule_witness :
    (Pai.applyRulesTx [⟨"my_groceries", ⟨some "tesco", none, none, none⟩⟩]
        Pai.sampleTx).category = some "my_groceries" :=
  (Pai.applyRulesTx_first_matching_rule
    [⟨"my_groceries", ⟨some "tesco", none, none, none⟩⟩] Pai.sampleTx
    ⟨"my_groceries", ⟨some "tesco", none, none, none⟩⟩ rfl rfl
    (by simp +decide [Pai.ruleMatches, Pai.containsCI, Pai.strContains, Pai.hasSub,
      Pai.matchHere, Pai.sampleTx])
    (by decide)).1

/-- C5 counterexample: a rule whose present matcher is satisfied but whose
`category_key` is the empty string is the first (and only) matching rule, yet
the Categorizer does not assign its key — the empty key is falsy, so the code
falls through to the heuristic, which assigns "groceries". -/
theorem Pai.applyRulesTx_empty_key_counterexample :
    (([⟨"", ⟨some "tesco", none, none, none⟩⟩] :
        List Pai.CategorizationRule).find? fun r => Pai.ruleMatches Pai.sampleTx r.matchers)
      = some ⟨"", ⟨some "tesco", none, none, none⟩⟩
    ∧ (Pai.applyRulesTx [⟨"", ⟨some "tesco", none, none, none⟩⟩] Pai.sampleTx).category
      = some "groceries" := by
  constructor
  · simp +decide [Pai.ruleMatches, Pai.containsCI, Pai.strContains, Pai.hasSub,
      Pai.matchHere, Pai.sampleTx]
  · simp +decide [Pai.applyRulesTx, Pai.chosenCategory, Pai.applyUserRules,
      Pai.ruleMatches, Pai.containsCI, Pai.strContains, Pai.hasSub, Pai.matchHere,
      Pai.strTruthy, Pai.categorizeHeuristic, Pai.heuristicTable, Pai.sampleTx]


namespace Pai

/-! ## Currency Normalizer (`transaction_processor.py`,
`TransactionProcessor._get_exchange_rate`)

The process-wide `ecb_rates_cache` dict (key `f"{from}_{to}"`, value
`(rate, cached_at)`) is threaded explicitly and `utc_now()` is a `now`
parameter. -/

/-- Python dict assignment on the rate cache: update in place, else append. -/
def rateCacheSet (cache : List (String × ℚ × Int)) (k : String) (r : ℚ) (t : Int) :
    List (String × ℚ × Int) :=
  match cache with
  | [] => [(k, r, t)]
  | kv :: rest => if kv.1 = k then (k, r, t) :: rest else kv :: rateCacheSet rest k r t

/-- `TransactionProcessor._get_exchange_rate` (lines 121-133): return a cached
rate younger than the 3600-second TTL; otherwise the ECB call is an
unimplemented `TODO` and the bare constant 1.0 is cached and returned — with
no rate-provider consult, no log statement, and no warning marker (the return
type is a plain float). -/
def getExchangeRate (cache : List (String × ℚ × Int)) (now : Int)
    (fromCurr toCurr : String) : ℚ × List (String × ℚ × Int) :=
  let key := fromCurr ++ "_" ++ toCurr
  match (cache.find? fun kv => decide (kv.1 = key)).map Prod.snd with
  | some rt =>
    if now - rt.2 < 3600 then (rt.1, cache)
    else (1, rateCacheSet cache key 1 now)
  | none => (1, rateCacheSet cache key 1 now)

end Pai

/-- C8: on a cache miss the code performs no provider lookup and attaches no
warning marker — it unconditionally returns the bare rate 1.0 and caches it
(shown here by full evaluation from an empty cache); it never raises.  The
claim's "explicit, logged fallback with a warning marker on the result" does
not exist in the code (the ECB call is a TODO), though "never raises a hard
failure" holds. -/
theorem Pai.getExchangeRate_miss_returns_bare_one (now : Int)
    (fromCurr toCurr : String) :
    Pai.getExchangeRate [] now fromCurr toCurr
      = (1, [(fromCurr ++ "_" ++ toCurr, 1, now)]) := rfl

namespace Pai

/-! ## UK utility categorization (`multibank_detector.py`,
`MultiBankDetector.categorize_uk_utilities` and the utilities loop of
`process_transactions`)

The `UK_UTILITY_PATTERNS` regexes use only literal characters, the escaped
dot `\.` and the word boundary `\b`; `reSearch` implements exactly this
fragment of `re.search` with `re.IGNORECASE` (ASCII).  The float confidences
0.9 / 0.7 / 0.8 are modelled as exact rationals; the only operations
performed on them are order comparisons among themselves and zero, on which
binary floats and rationals agree. -/

/-- A compiled regex token: a literal character or a word boundary. -/
inductive RTok where
  | lit : Char → RTok
  | bnd : RTok
  deriving DecidableEq, Repr

/-- Compile a pattern string: `\b` is a word boundary, `\c` is the literal
`c`, anything else is itself. -/
def reTokens : List Char → List RTok
  | [] => []
  | '\\' :: 'b' :: rest => RTok.bnd :: reTokens rest
  | '\\' :: c :: rest => RTok.lit c :: reTokens rest
  | c :: rest => RTok.lit c :: reTokens rest

/-- A regex word character (ASCII `\w`). -/
def isWordChar (c : Char) : Bool := c.isAlphanum || c == '_'

/-- Word-character test of an optional character (string edges are
non-word). -/
def wordOpt : Option Char → Bool
  | none => false
  | some c => isWordChar c

/-- Case-insensitive character equality (`re.IGNORECASE`). -/
def eqCI (c d : Char) : Bool := c.toLower == d.toLower

/-- Match a token list at the current position; `prev` is the character just
before the position (for `\b`). -/
def reMatchFrom : List RTok → Option Char → List Char → Bool
  | [], _, _ => true
  | RTok.bnd :: ts, prev, s => (wordOpt prev != wordOpt s.head?) && reMatchFrom ts prev s
  | RTok.lit _ :: _, _, [] => false
  | RTok.lit c :: ts, _, d :: ds => eqCI c d && reMatchFrom ts (some d) ds

/-- Try to match at every position, left to right. -/
def reSearchAux (ts : List RTok) : Option Char → List Char → Bool
  | prev, [] => reMatchFrom ts prev []
  | prev, c :: rest => reMatchFrom ts prev (c :: rest) || reSearchAux ts (some c) rest

/-- `re.search(pattern, text, re.IGNORECASE)` for the pattern fragment in
use. -/
def reSearch (pat text : String) : Bool :=
  reSearchAux (reTokens pat.data) none text.data

/-- The `UK_UTILITY_PATTERNS` table, in insertion (iteration) order. -/
def ukUtilityPatterns : List (String × List String) :=
  [("council_tax", ["COUNCIL TAX", "\\bCOUNCIL\\b", "LOCAL AUTHORITY"]),
   ("water", ["WATER", "THAMES", "ANGLIAN", "SEVERN TRENT", "UNITED UTILITIES",
              "YORKSHIRE WATER"]),
   ("energy", ["BRITISH GAS", "EDF ENERGY", "E\\.ON", "OCTOPUS", "BULB", "OVO",
               "UTILITA"]),
   ("broadband", ["BT\\b", "SKY", "VIRGIN MEDIA", "TALKTALK", "PLUSNET", "EE\\b"]),
   ("mortgage", ["MORTGAGE", "HALIFAX MTG", "SANTANDER MTG", "NATIONWIDE BS",
                 "BARCLAYS MTG"]),
   ("rent", ["RENT", "LETTING", "ESTATE AGENT", "PROPERTY MANAGEMENT", "LANDLORD"]),
   ("insurance", ["INSURANCE", "ADMIRAL", "DIRECT LINE", "AVIVA", "CHURCHILL"]),
   ("mobile", ["VODAFONE", "O2\\b", "THREE\\b", "EE MOBILE", "GIFFGAFF"]),
   ("council", ["COUNCIL", "BOROUGH", "DISTRICT COUNCIL", "CITY COUNCIL"])]

/-- The `text_to_match` of `categorize_uk_utilities`:
`f"{description.upper()} {merchant.upper()}"`. -/
def utilText (tx : NormalizedTransaction) : String :=
  upperStr tx.description ++ " " ++ upperStr (tx.merchant.getD "")

/-- `confidence = 0.9 if len(pattern) > 10 else 0.7`. -/
def confOf (p : String) : ℚ := if p.length > 10 then 9/10 else 7/10

/-- The best-match scan of `categorize_uk_utilities` over a table suffix,
state = `(best_match, best_confidence)`. -/
def ukTableFold (t : String) (table : List (String × List String))
    (st : Option String × ℚ) : Option String × ℚ :=
  table.foldl
    (fun st pr =>
      pr.2.foldl
        (fun st p =>
          if reSearch p t then
            (if st.2 < confOf p then (some pr.1, confOf p) else st)
          else st)
        st)
    st

/-- `MultiBankDetector.categorize_uk_utilities` (lines 337-371): scan ALL
patterns keeping the strictly-highest confidence; return the best match
(`best_match` is `None` or a non-empty table key, so Python truthiness is
`isSome` here).  The `except` wrapper is unreachable: the body is total. -/
def categorizeUkUtilities (tx : NormalizedTransaction) : Option (String × ℚ) :=
  let st := ukTableFold (utilText tx) ukUtilityPatterns (none, 0)
  match st.1 with
  | some c => some (c, st.2)
  | none => none

/-- The utilities loop body of `process_transactions` (lines 392-399): only a
falsy-category transaction is (re)categorized; the Bool reports whether
`categorized_count` was incremented. -/
def processUtilTx (tx : NormalizedTransaction) : NormalizedTransaction × Bool :=
  if strTruthy tx.category then (tx, false)
  else
    match categorizeUkUtilities tx with
    | some cr =>
      ({ tx with
          category := some cr.1
          category_confidence := some (if (8 : ℚ)/10 < cr.2 then "high" else "medium") },
       true)
    | none => (tx, false)

/-- Claim-side: the confidence a category's pattern list attains on a text
(0 when nothing matches). -/
def catConf (t : String) (pats : List String) : ℚ :=
  ((pats.filter fun p => reSearch p t).map confOf).foldr max 0

/-- Claim-side: the highest confidence attained by any category of a table. -/
def tableMax (t : String) (table : List (String × List String)) : ℚ :=
  (table.map fun pr => catConf t pr.2).foldr max 0

/-- Claim-side best-match semantics: the highest-confidence match wins, ties
broken by table order. -/
def bestUtilityMatch (tx : NormalizedTransaction) : Option (String × ℚ) :=
  let t := utilText tx
  let mc := tableMax t ukUtilityPatterns
  if mc = 0 then none
  else (ukUtilityPatterns.find? fun pr => decide (catConf t pr.2 = mc)).map
    fun pr => (pr.1, mc)

/-- Claim-side first-match-wins semantics, following the claim's words: the
first matching pattern's category wins, with that pattern's confidence. -/
def specFirstUtilityMatch (tx : NormalizedTransaction) : Option (String × ℚ) :=
  let t := utilText tx
  ((ukUtilityPatterns.flatMap fun pr => pr.2.map fun p => (pr.1, p)).find?
      fun cp => reSearch cp.2 t).map
    fun cp => (cp.1, confOf cp.2)

end Pai

namespace Pai

/-- Pattern confidences are positive. -/
theorem confOf_pos (p : String) : 0 < confOf p := by
  unfold confOf
  split <;> norm_num

/-- A fold of `max` over rationals starting at 0 is nonnegative. -/
theorem foldr_max_nonneg (l : List ℚ) : 0 ≤ l.foldr max 0 := by
  induction l with
  | nil => simp
  | cons a rest ih => exact le_trans ih (le_max_right a _)

/-- A category's attained confidence is nonnegative. -/
theorem catConf_nonneg (t : String) (pats : List String) : 0 ≤ catConf t pats :=
  foldr_max_nonneg _

/-- A table's best confidence is nonnegative. -/
theorem tableMax_nonneg (t : String) (table : List (String × List String)) :
    0 ≤ tableMax t table :=
  foldr_max_nonneg _

/-- The inner pattern loop of `categorize_uk_utilities` updates the state to
the category's attained confidence exactly when that improves on the incoming
state. -/
theorem ukInnerFold_eq (t : String) (c : String) (pats : List String) :
    ∀ st : Option String × ℚ, 0 ≤ st.2 →
      pats.foldl
        (fun st p =>
          if reSearch p t then
            (if st.2 < confOf p then (some c, confOf p) else st)
          else st)
        st
      = if st.2 < catConf t pats then (some c, catConf t pats) else st := by
  induction pats with
  | nil =>
    intro st h
    rw [List.foldl_nil, if_neg]
    simp only [catConf, List.filter_nil, List.map_nil, List.foldr_nil]
    exact not_lt.mpr h
  | cons p rest ih =>
    intro st h
    rw [List.foldl_cons]
    by_cases hm : reSearch p t = true
    · rw [if_pos hm]
      have hcc : catConf t (p :: rest) = max (confOf p) (catConf t rest) := by
        simp [catConf, List.filter_cons, hm]
      by_cases hlt : st.2 < confOf p
      · rw [if_pos hlt]
        rw [ih (some c, confOf p) (confOf_pos p).le]
        rw [hcc, if_pos (lt_max_of_lt_left hlt)]
        by_cases h2 : confOf p < catConf t rest
        · rw [if_pos h2, max_eq_right h2.le]
        · rw [if_neg h2, max_eq_left (not_lt.mp h2)]
      · rw [if_neg hlt]
        rw [ih st h, hcc]
        have hnp : confOf p ≤ st.2 := not_lt.mp hlt
        by_cases h2 : st.2 < catConf t rest
        · rw [if_pos h2, if_pos (lt_max_of_lt_right h2),
            max_eq_right (le_trans hnp h2.le)]
        · rw [if_neg h2, if_neg (not_lt.mpr (max_le hnp (not_lt.mp h2)))]
    · rw [if_neg hm]
      have hcc : catConf t (p :: rest) = catConf t rest := by
        simp [catConf, List.filter_cons, hm]
      rw [ih st h, hcc]

/-- The outer category loop: an accumulator the table cannot beat survives,
and otherwise the first category attaining the table's best confidence wins
with that confidence. -/
theorem ukTableFold_eq (t : String) :
    ∀ (table : List (String × List String)) (st : Option String × ℚ), 0 ≤ st.2 →
      (tableMax t table ≤ st.2 → ukTableFold t table st = st)
      ∧ (st.2 < tableMax t table →
          ∃ pr, (table.find? fun pr => decide (catConf t pr.2 = tableMax t table))
                  = some pr
            ∧ ukTableFold t table st = (some pr.1, tableMax t table)) := by
  intro table
  induction table with
  | nil =>
    intro st h
    refine ⟨fun _ => rfl, fun hlt => absurd hlt ?_⟩
    simp only [tableMax, List.map_nil, List.foldr_nil]
    exact not_lt.mpr h
  | cons pr rest ih =>
    intro st h
    have htm : tableMax t (pr :: rest) = max (catConf t pr.2) (tableMax t rest) := by
      simp [tableMax]
    have hstep : ukTableFold t (pr :: rest) st
        = ukTableFold t rest
            (if st.2 < catConf t pr.2 then (some pr.1, catConf t pr.2) else st) := by
      unfold ukTableFold
      rw [List.foldl_cons, ukInnerFold_eq t pr.1 pr.2 st h]
    by_cases hlt : st.2 < catConf t pr.2
    · rw [if_pos hlt] at hstep
      constructor
      · intro hmax
        rw [htm] at hmax
        exact absurd (lt_of_lt_of_le hlt (le_trans (le_max_left _ _) hmax))
          (lt_irrefl _)
      · intro hmax2
        by_cases h2 : catConf t pr.2 < tableMax t rest
        · have hM : tableMax t (pr :: rest) = tableMax t rest := by
            rw [htm, max_eq_right h2.le]
          obtain ⟨pr', hfind, hval⟩ :=
            (ih (some pr.1, catConf t pr.2) (catConf_nonneg t pr.2)).2 h2
          refine ⟨pr', ?_, ?_⟩
          · rw [hM, List.find?_cons_of_neg, hfind]
            simp only [decide_eq_true_eq]
            rw [hM] at *
            exact ne_of_lt h2
          · rw [hstep, hval, hM]
        · have hM : tableMax t (pr :: rest) = catConf t pr.2 := by
            rw [htm, max_eq_left (not_lt.mp h2)]
          refine ⟨pr, ?_, ?_⟩
          · rw [List.find?_cons_of_pos]
            simp only [decide_eq_true_eq]
            rw [hM]
          · rw [hstep, hM,
              (ih (some pr.1, catConf t pr.2) (catConf_nonneg t pr.2)).1
                (not_lt.mp h2)]
    · rw [if_neg hlt] at hstep
      have hnp : catConf t pr.2 ≤ st.2 := not_lt.mp hlt
      constructor
      · intro hmax
        rw [htm] at hmax
        rw [hstep]
        exact (ih st h).1 (le_trans (le_max_right _ _) hmax)
      · intro hmax2
        rw [htm] at hmax2
        have h3 : st.2 < tableMax t rest := by
          rcases lt_max_iff.mp hmax2 with hc | hc
          · exact absurd hc (not_lt.mpr hnp)
          · exact hc
        have hM : tableMax t (pr :: rest) = tableMax t rest := by
          rw [htm, max_eq_right (le_trans hnp h3.le)]
        obtain ⟨pr', hfind, hval⟩ := (ih st h).2 h3
        refine ⟨pr', ?_, ?_⟩
        · rw [hM, List.find?_cons_of_neg, hfind]
          simp only [decide_eq_true_eq]
          exact ne_of_lt (lt_of_le_of_lt hnp h3)
        · rw [hstep, hval, hM]

/-- The code's best-match scan equals the claim-side "highest confidence wins,
ties to table order" semantics. -/
theorem categorizeUkUtilities_eq_best (tx : NormalizedTransaction) :
    categorizeUkUtilities tx = bestUtilityMatch tx := by
  obtain ⟨hle, hlt⟩ :=
    ukTableFold_eq (utilText tx) ukUtilityPatterns (none, 0) le_rfl
  rcases eq_or_lt_of_le (tableMax_nonneg (utilText tx) ukUtilityPatterns)
    with hM | hM
  · unfold categorizeUkUtilities bestUtilityMatch
    simp only [hle (le_of_eq hM.symm)]
    rw [if_pos hM.symm]
  · obtain ⟨pr, hfind, hval⟩ := hlt hM
    unfold categorizeUkUtilities bestUtilityMatch
    simp only [hval, hfind, Option.map_some]
    rw [if_neg (ne_of_gt hM)]
    simp

end Pai

/-- Concrete transaction whose description matches an early short pattern
(`THAMES`, category `water`) and a later long pattern
(`PROPERTY MANAGEMENT`, category `rent`). -/
def Pai.thamesTx : Pai.NormalizedTransaction :=
  { Pai.sampleTx with
      description := "THAMES PROPERTY MANAGEMENT"
      merchant := none }

/-- C7 (amended): UK utility categorization applies only to transactions with
a falsy category (left uncategorized), and its result is the
highest-confidence match over the WHOLE fixed table — confidence 0.9 for
patterns longer than 10 characters and 0.7 otherwise — with ties broken by
table order; it is not first-match-wins: a later long pattern overrides an
earlier short match (see the counterexample). -/
theorem Pai.processUtilities_uncategorized_best (tx : Pai.NormalizedTransaction) :
    (Pai.strTruthy tx.category = true → Pai.processUtilTx tx = (tx, false))
      ∧ Pai.categorizeUkUtilities tx = Pai.bestUtilityMatch tx := by
  constructor
  · intro h
    unfold Pai.processUtilTx
    rw [if_pos h]
  · exact Pai.categorizeUkUtilities_eq_best tx

/-- C7 witness: an already-categorized transaction is untouched, and the
best-match characterization instantiated at a concrete transaction. -/
theorem Pai.processUtilities_uncategorized_best_witness :
    Pai.processUtilTx { Pai.sampleTx with category := some "groceries" }
      = ({ Pai.sampleTx with category := some "groceries" }, false)
    ∧ Pai.categorizeUkUtilities Pai.thamesTx = Pai.bestUtilityMatch Pai.thamesTx :=
  ⟨(Pai.processUtilities_uncategorized_best _).1 rfl,
   (Pai.processUtilities_uncategorized_best _).2⟩

/-- C7 counterexample: on description "THAMES PROPERTY MANAGEMENT" the first
matching pattern in table order is `THAMES` (category `water`, confidence
0.7), but the code returns `rent` with 0.9 — the later, longer pattern
`PROPERTY MANAGEMENT` overrides it, refuting "the first matching pattern's
category wins". -/
theorem Pai.categorizeUkUtilities_first_match_counterexample :
    Pai.categorizeUkUtilities Pai.thamesTx = some ("rent", 9/10)
    ∧ Pai.specFirstUtilityMatch Pai.thamesTx = some ("water", 7/10)
    ∧ Pai.categorizeUkUtilities Pai.thamesTx ≠ Pai.specFirstUtilityMatch Pai.thamesTx := by
  have f1 : ((0:ℚ) < 7/10) = True := eq_true (by norm_num)
  have f2 : ((7:ℚ)/10 < 9/10) = True := eq_true (by norm_num)
  have f3 : ((9:ℚ)/10 < 9/10) = False := eq_false (by norm_num)
  have f4 : ((9:ℚ)/10 < 7/10) = False := eq_false (by norm_num)
  have f5 : ((7:ℚ)/10 < 7/10) = False := eq_false (by norm_num)
  have f6 : ((0:ℚ) < 9/10) = True := eq_true (by norm_num)
  have h1 : Pai.categorizeUkUtilities Pai.thamesTx = some ("rent", 9/10) := by
    simp +decide [Pai.categorizeUkUtilities, Pai.ukTableFold, Pai.ukUtilityPatterns,
      Pai.utilText, Pai.upperStr, Pai.confOf, Pai.thamesTx, Pai.sampleTx,
      f1, f2, f3, f4, f5, f6]
  have h2 : Pai.specFirstUtilityMatch Pai.thamesTx = some ("water", 7/10) := by
    simp +decide [Pai.specFirstUtilityMatch, Pai.ukUtilityPatterns, Pai.utilText,
      Pai.upperStr, Pai.confOf, Pai.thamesTx, Pai.sampleTx]
  refine ⟨h1, h2, ?_⟩
  rw [h1, h2]
  decide

namespace Pai

/-! ## Multi-Bank Cross-Account Detector (`multibank_detector.py`,
`detect_transfers`, `detect_duplicate_subscriptions`, `detect_debt_payments`,
`process_transactions`)

Each operation's body is pure except for the Supabase insert at its end; the
insert is the one fallible external call, modelled by a Boolean failure
oracle (`insertFails`): when the insert raises, the `except Exception`
handler returns `[]` (or the error summary) while the in-place
`is_transfer`/`category` mutations already applied to the caller's
transaction objects stand.  `datetime.utcnow()` is a `now` parameter;
`md5` hashes are modelled as their structured input (collision-free model);
Decimal/float score arithmetic is modelled as exact rationals. -/

/-- Insertion-ordered `defaultdict(list)` grouping step. -/
def groupInsert {α : Type} (gs : List (String × List α)) (k : String) (a : α) :
    List (String × List α) :=
  match gs with
  | [] => [(k, [a])]
  | g :: rest => if g.1 = k then (g.1, g.2 ++ [a]) :: rest else g :: groupInsert rest k a

/-- The `i < j` double loop over a list, pairs in iteration order. -/
def orderedPairs {α : Type} : List α → List (α × α)
  | [] => []
  | g :: rest => (rest.map fun g' => (g, g')) ++ orderedPairs rest

/-- `_contains_merchant_name` (lines 126-134). -/
def containsMerchantName (d : String) : Bool :=
  ["PAYMENT TO", "PAYMENT FROM", "TRANSFER TO", "TRANSFER FROM",
   "DD ", "DIRECT DEBIT", "STANDING ORDER", "FASTER PAYMENT"].any
    fun kw => strContains (upperStr d) kw

/-- `_is_transfer_candidate` (lines 101-124): opposite signs, magnitudes
within 0.01, dates within 3 days (`timedelta.days`, floor), no
merchant-payment phrasing, neither flagged duplicate. -/
def mbIsTransferCandidate (t1 t2 : NormalizedTransaction) : Bool :=
  !decide (0 ≤ t1.amount * t2.amount)
  && !decide ((1 : ℚ)/100 < qAbs (qAbs t1.amount - qAbs t2.amount))
  && !decide (3 < ((t1.posted_at - t2.posted_at).fdiv 86400).natAbs)
  && !containsMerchantName t1.description
  && !containsMerchantName t2.description
  && !(t1.is_duplicate || t2.is_duplicate)

/-- An `account_mappings` row as built by `detect_transfers`. -/
structure TransferMapping where
  user_id : String
  source_account_id : String
  destination_account_id : String
  relationship_type : String
  detected_at : Int
  confirmed_by_user : Bool
  deriving DecidableEq, Repr

/-- `tuple(sorted([id1, id2]))` used for `processed_pairs`. -/
def pairKey (a b : String) : String × String :=
  if a ≤ b then (a, b) else (b, a)

/-- The pair loop of `detect_transfers` (lines 64-88): thread the
`processed_pairs` set, collecting mapping rows and the positions whose
`is_transfer` is set. -/
def mbTransfersLoop (user : String) (now : Int)
    (pairs : List ((Nat × NormalizedTransaction) × (Nat × NormalizedTransaction))) :
    List (String × String) × List TransferMapping × List Nat :=
  pairs.foldl
    (fun st sd =>
      let key := pairKey sd.1.2.id sd.2.2.id
      if key ∈ st.1 then st
      else
        (key :: st.1,
         if mbIsTransferCandidate sd.1.2 sd.2.2 then
           st.2.1 ++ [{ user_id := user
                        source_account_id := sd.1.2.account_id
                        destination_account_id := sd.2.2.account_id
                        relationship_type := "transfer"
                        detected_at := now
                        confirmed_by_user := false }]
         else st.2.1,
         if mbIsTransferCandidate sd.1.2 sd.2.2 then st.2.2 ++ [sd.1.1, sd.2.1]
         else st.2.2))
    ([], [], [])

/-- The pure body of `MultiBankDetector.detect_transfers` (lines 43-95):
group the enumerated batch by account, run the `i < j` account double loop
over all cross-account transaction pairs, and return the mapping rows plus
the flagged positions. -/
def mbDetectTransfersCore (user : String) (now : Int)
    (txs : List NormalizedTransaction) : List TransferMapping × List Nat :=
  let gs := txs.enum.foldl (fun gs it => groupInsert gs it.2.account_id it) []
  let pairs := (orderedPairs gs).flatMap fun gg =>
    gg.1.2.flatMap fun s => gg.2.2.map fun d => (s, d)
  (mbTransfersLoop user now pairs).2

/-- Apply the in-place `is_transfer = True` mutations position-wise. -/
def applyTransferFlags (txs : List NormalizedTransaction) (flagged : List Nat) :
    List NormalizedTransaction :=
  txs.enum.map fun it =>
    if it.1 ∈ flagged then { it.2 with is_transfer := true } else it.2

/-- `MultiBankDetector.detect_transfers` with its `except` handler: the
mutations always stand; the returned rows are `[]` when the (nonempty-only)
insert fails. -/
def mbDetectTransfers (insertFails : Bool) (user : String) (now : Int)
    (txs : List NormalizedTransaction) :
    List NormalizedTransaction × List TransferMapping :=
  let core := mbDetectTransfersCore user now txs
  (applyTransferFlags txs core.2,
   if insertFails && !core.1.isEmpty then [] else core.1)

/-- `_normalize_merchant_name` prefixes (lines 262-265). -/
def leadPhrases : List String :=
  ["PAYMENT TO ", "PAYMENT FROM ", "DD ", "DIRECT DEBIT ",
   "STANDING ORDER ", "FASTER PAYMENT ", "TRANSFER TO "]

/-- `_normalize_merchant_name` suffixes (lines 272-274). -/
def tailPhrases : List String :=
  [" LTD", " LIMITED", " PLC", " INC", " CORP", " CORPORATION"]

/-- Python `str.strip()` (ASCII whitespace). -/
def strStrip (s : String) : String :=
  String.mk (((s.data.dropWhile Char.isWhitespace).reverse.dropWhile
    Char.isWhitespace).reverse)

/-- Python `startswith` on strings. -/
def strStarts (s pre : String) : Bool := matchHere pre.data s.data

/-- Python `endswith` on strings. -/
def strEnds (s suf : String) : Bool := matchHere suf.data.reverse s.data.reverse

/-- One prefix-strip step of `_normalize_merchant_name`. -/
def stripLead (s p : String) : String :=
  if strStarts s p then String.mk (s.data.drop p.data.length) else s

/-- One suffix-strip step of `_normalize_merchant_name`. -/
def stripTail (s p : String) : String :=
  if strEnds s p then String.mk (s.data.take (s.data.length - p.data.length)) else s

/-- `_normalize_merchant_name` (lines 253-280). -/
def normalizeMerchantName (m : Option String) : String :=
  match m with
  | none => ""
  | some mer =>
    if mer.isEmpty then ""
    else strStrip (tailPhrases.foldl stripTail
      (leadPhrases.foldl stripLead (strStrip (upperStr mer))))

/-- `_is_duplicate_candidate` (lines 207-224): same merchant, amounts within
10% of their average, dates within 7 days. -/
def mbIsDuplicateCandidate (t1 t2 : NormalizedTransaction) : Bool :=
  decide (t1.merchant = t2.merchant)
  && !decide (0 < (qAbs t1.amount + qAbs t2.amount) / 2
        ∧ (1 : ℚ)/10 < qAbs (t1.amount - t2.amount)
              / ((qAbs t1.amount + qAbs t2.amount) / 2))
  && !decide (7 < ((t1.posted_at - t2.posted_at).fdiv 86400).natAbs)

/-- `_calculate_similarity_score` (lines 226-246), in exact rational
arithmetic. -/
def similarityScore (t1 t2 : NormalizedTransaction) : ℚ :=
  let s1 := if t1.merchant = t2.merchant then (4 : ℚ)/10 else 0
  let avg := (qAbs t1.amount + qAbs t2.amount) / 2
  let s2 := if 0 < avg
    then max 0 (1 - qAbs (t1.amount - t2.amount) / avg) * (3/10) else 0
  let s3 := max 0 (1 - (((t1.posted_at - t2.posted_at).fdiv 86400).natAbs : ℚ) / 7)
    * (3/10)
  min (s1 + s2 + s3) 1

/-- `_create_transaction_hash` (lines 248-251): the md5 of
`f"{account_id}_{amount}_{posted_at.isoformat()}_{merchant}"`, modelled as
its structured input. -/
def createTransactionHash (tx : NormalizedTransaction) :
    String × ℚ × Int × Option String :=
  (tx.account_id, tx.amount, tx.posted_at, tx.merchant)

/-- A `duplicate_transactions` row as built by
`detect_duplicate_subscriptions`. -/
structure DuplicateRecord where
  user_id : String
  tx1_hash : String × ℚ × Int × Option String
  tx2_hash : String × ℚ × Int × Option String
  similarity_score : ℚ
  is_duplicate : Bool
  user_confirmed : Bool
  created_at : Int
  deriving DecidableEq

/-- The pure body of `detect_duplicate_subscriptions` (lines 146-195): group
truthy-merchant non-transfer transactions by normalized merchant, then for
groups of two or more run the `i < j` account double loop collecting
candidate rows. -/
def mbDetectDupSubsCore (user : String) (now : Int)
    (txs : List NormalizedTransaction) : List DuplicateRecord :=
  let eligible := txs.filter fun tx => strTruthy tx.merchant && !tx.is_transfer
  let groups := eligible.foldl
    (fun gs tx => groupInsert gs (normalizeMerchantName tx.merchant) tx) []
  groups.flatMap fun g =>
    if g.2.length < 2 then []
    else
      let ags := g.2.foldl (fun gs tx => groupInsert gs tx.account_id tx) []
      (orderedPairs ags).flatMap fun gg =>
        gg.1.2.flatMap fun t1 =>
          gg.2.2.filterMap fun t2 =>
            if mbIsDuplicateCandidate t1 t2 then
              some { user_id := user
                     tx1_hash := createTransactionHash t1
                     tx2_hash := createTransactionHash t2
                     similarity_score := similarityScore t1 t2
                     is_duplicate := false
                     user_confirmed := false
                     created_at := now }
            else none

/-- `detect_duplicate_subscriptions` with its `except` handler (no transaction
mutation happens in this operation). -/
def mbDetectDupSubs (insertFails : Bool) (user : String) (now : Int)
    (txs : List NormalizedTransaction) : List DuplicateRecord :=
  let recs := mbDetectDupSubsCore user now txs
  if insertFails && !recs.isEmpty then [] else recs

end Pai

namespace Pai

/-- The debt regex patterns (lines 295-302), each decomposed around its single
greedy group: `pre ++ (.+) ++ post`. -/
def debtPatterns : List (String × String) :=
  [("PAYMENT TO ", " CARD"),
   ("PAYMENT TO ", " CREDIT"),
   ("PAYMENT TO ", " LOAN"),
   ("PAYMENT TO ", " MORTGAGE"),
   ("", " CARD PAYMENT"),
   ("", " LOAN PAYMENT")]

/-- Length of the newline-free head of a list (a greedy `.+` cannot cross a
newline). -/
def firstNl (l : List Char) : Nat := (l.takeWhile fun c => !(c == '\n')).length

/-- Largest split point `k ≤ bound`, `k ≥ 1`, at which `post` matches — the
greedy extent of `(.+)`. -/
def findMaxSplit (post r : List Char) : Nat → Option Nat
  | 0 => none
  | k + 1 => if matchHere post (r.drop (k + 1)) then some (k + 1)
             else findMaxSplit post r k

/-- Match `pre ++ (.+) ++ post` at the current position, returning the greedy
group. -/
def reGroupAt (pre post s : List Char) : Option (List Char) :=
  if matchHere pre s then
    let r := s.drop pre.length
    match findMaxSplit post r (firstNl r) with
    | some k => some (r.take k)
    | none => none
  else none

/-- `re.search` for `pre ++ (.+) ++ post`: leftmost position, greedy group. -/
def reGroupSearch (pre post : List Char) : List Char → Option (List Char)
  | [] => reGroupAt pre post []
  | c :: rest =>
    match reGroupAt pre post (c :: rest) with
    | some g => some g
    | none => reGroupSearch pre post rest

/-- The first debt pattern (in table order) matching the description, with its
extracted group — the loop's `break`. -/
def findFirstGroup : List (String × String) → String → Option (List Char)
  | [], _ => none
  | pp :: rest, d =>
    match reGroupSearch pp.1.data pp.2.data d.data with
    | some g => some g
    | none => findFirstGroup rest d

/-- A debt-payment row as built by `detect_debt_payments`. -/
structure DebtPayment where
  user_id : String
  account_name : String
  debt_type : String
  amount : ℚ
  payment_date : Int
  detected_at : Int
  deriving DecidableEq, Repr

/-- The per-transaction body of `detect_debt_payments` (lines 304-329):
outgoing amounts only; first matching pattern wins; `LOAN`/`MORTGAGE`
anywhere in the upper-cased description makes the type `loan`. -/
def debtRecordFor (user : String) (now : Int) (tx : NormalizedTransaction) :
    Option DebtPayment :=
  if decide (tx.amount < 0) then
    let d := upperStr tx.description
    match findFirstGroup debtPatterns d with
    | some g =>
      some { user_id := user
             account_name := strStrip (String.mk g)
             debt_type := if strContains d "LOAN" || strContains d "MORTGAGE"
               then "loan" else "credit_card"
             amount := qAbs tx.amount
             payment_date := dateOf tx.posted_at
             detected_at := now }
    | none => none
  else none

/-- `MultiBankDetector.detect_debt_payments` (lines 282-335).  Its body makes
no fallible external call (no DB write), so its `except` handler is
unreachable and the rows are returned unconditionally. -/
def mbDetectDebtPayments (user : String) (now : Int)
    (txs : List NormalizedTransaction) : List DebtPayment :=
  txs.filterMap (debtRecordFor user now)

/-- The summary dict returned by `process_transactions`. -/
structure MBSummary where
  transfers_detected : Nat
  duplicates_detected : Nat
  debt_payments_detected : Nat
  utilities_categorized : Nat
  total_processed : Nat
  error : Option String
  deriving DecidableEq, Repr

/-- `MultiBankDetector.process_transactions` (lines 373-421): run the three
detectors (each containing its own failures), then the utilities loop, and
return the mutated batch with the count summary.  The outer `except` is
unreachable — every sub-call returns normally — so `error` is always
`none`. -/
def processTransactions (tFail dFail : Bool) (user : String) (now : Int)
    (txs : List NormalizedTransaction) :
    List NormalizedTransaction × MBSummary :=
  let r1 := mbDetectTransfers tFail user now txs
  let duplicates := mbDetectDupSubs dFail user now r1.1
  let debts := mbDetectDebtPayments user now r1.1
  let r2 := r1.1.foldl
    (fun acc tx =>
      let p := processUtilTx tx
      (acc.1 ++ [p.1], acc.2 + (if p.2 then 1 else 0)))
    (([] : List NormalizedTransaction), (0 : Nat))
  (r2.1,
   { transfers_detected := r1.2.length
     duplicates_detected := duplicates.length
     debt_payments_detected := debts.length
     utilities_categorized := r2.2
     total_processed := txs.length
     error := none })

/-- A failing nonempty-only insert always leaves an empty record list. -/
theorem failedInsert_empty {α : Type} (r : List α) :
    (if true && !r.isEmpty then ([] : List α) else r) = [] := by
  by_cases h : r.isEmpty
  · simpa [h] using List.isEmpty_iff.mp h
  · simp [h]

end Pai

/-- C10: every Multi-Bank Detector operation contains its internal failures
instead of raising: when the end-of-body insert fails, `detect_transfers` and
`detect_duplicate_subscriptions` return `[]`; the `is_transfer` mutations
already applied before the failing insert stand (they are identical to the
success run's); `detect_debt_payments` has no fallible call and returns its
rows unconditionally; and `process_transactions` returns the same mutated
batch for every failure combination, with an `error`-free summary (its own
handler, which would return the zero-count summary carrying `error`, is
unreachable since every sub-call returns normally). -/
theorem Pai.multibank_error_containment (user : String) (now : Int)
    (txs : List Pai.NormalizedTransaction) :
    ((Pai.mbDetectTransfers true user now txs).2 = []
      ∧ (Pai.mbDetectTransfers true user now txs).1
          = (Pai.mbDetectTransfers false user now txs).1)
    ∧ Pai.mbDetectDupSubs true user now txs = []
    ∧ (∀ b₁ b₂ : Bool,
        (Pai.processTransactions b₁ b₂ user now txs).1
            = (Pai.processTransactions false false user now txs).1
          ∧ (Pai.processTransactions b₁ b₂ user now txs).2.error = none) := by
  refine ⟨⟨Pai.failedInsert_empty _, rfl⟩, Pai.failedInsert_empty _, ?_⟩
  intro b₁ b₂
  exact ⟨rfl, rfl⟩
